import Mathlib

/-!
Verification of the metrics aggregation and tabular rendering pipeline of the
Kram tool (`kram.go`).  The Go source is shallowly embedded: the external
Kubernetes clients are modelled as an environment of fallible calls
(`K8sEnv`), int64 quantities as `Int`, and the terminal output as lists of
lines made of styled segments.  A fetch call that fails is recorded in the
error list and yields the empty result, matching the client-go behaviour of
returning a non-nil empty object together with the error.  Dereferencing a
client whose construction failed (a nil pointer in Go) is modelled as an
abnormal termination (`RunResult.panicked`).
-/

/-- Container: one entry of `pod.Spec.Containers` — a declared container with
its name and the CPU (milli-units) and memory (bytes) request/limit
quantities, zero when unset (`requests.Cpu().MilliValue()` of an absent entry
is 0 in Go). -/
structure Container where
  name : String
  cpuRequest : Int
  cpuLimit : Int
  memRequest : Int
  memLimit : Int
deriving DecidableEq, Repr

/-- Pod: a pod name together with its ordered declared containers
(`pod.Spec.Containers`). -/
structure Pod where
  name : String
  containers : List Container
deriving DecidableEq, Repr

/-- ContainerMetrics: one entry of `podMetrics.Containers` — a live usage
sample with the container name and measured CPU (milli-units) and memory
(bytes) usage. -/
structure ContainerMetrics where
  name : String
  cpuUsage : Int
  memUsage : Int
deriving DecidableEq, Repr

/-- K8sEnv: the external collaborators of `main` in `kram.go`.  The three
construction steps (`clientcmd.BuildConfigFromFlags`,
`kubernetes.NewForConfig`, `metricsv.NewForConfig`) and the three fetch
operations (list namespaces, list pods of a namespace, get the metrics of a
pod) each either succeed or fail with an error message.  Fetches are
deterministic within one run, matching a single snapshot pass. -/
structure K8sEnv where
  buildConfig : Except String Unit
  newClientset : Except String Unit
  newMetricsClientset : Except String Unit
  listNamespacesR : Except String (List String)
  listPodsR : String → Except String (List Pod)
  getPodMetricsR : String → String → Except String (List ContainerMetrics)

/-- Totals: the six int64 accumulators used by both modes of `kram.go`
(cpu usage/request/limit in milli-units, memory usage/request/limit in
bytes). -/
structure Totals where
  cpuUsage : Int
  cpuRequest : Int
  cpuLimit : Int
  memUsage : Int
  memRequest : Int
  memLimit : Int
deriving DecidableEq, Repr

/-- Totals.zero: the zero-initialised accumulators (`var total... int64`). -/
def Totals.zero : Totals := ⟨0, 0, 0, 0, 0, 0⟩

/-- ContainerRecord: the data-model record of the spec — one correlated
container of one pod, carrying the six quantities extracted at lines 236-241
of `kram.go` (usage from the metrics sample, request/limit from the matched
declared container). -/
structure ContainerRecord where
  podName : String
  name : String
  cpuUsage : Int
  cpuRequest : Int
  cpuLimit : Int
  memUsage : Int
  memRequest : Int
  memLimit : Int
deriving DecidableEq, Repr

/-! ## Unit formatter (docker/go-units `BytesSize` / `HumanSize`)

`kram.go` renders memory through `units.BytesSize` (binary, base 1024,
abbreviations B/KiB/MiB/...) and `units.HumanSize` (decimal, base 1000,
abbreviations B/kB/MB/...).  The library computes on float64 and prints the
scaled value with four significant digits; here the scaled value is the
floored integer quotient.  The loop that selects the unit index exits exactly
when the scaled value drops below the base, and since for an integer x and
base b one has x/b ≥ b as rationals iff ⌊x/b⌋ ≥ b, the unit index computed
below coincides with the library's for every integral byte count; only the
digits of the scaled value may differ from the %.4g rendering, and no theorem
of this file relies on those digits. -/

/-- binaryAbbrs: the binary abbreviation table of docker/go-units. -/
def binaryAbbrs : List String :=
  ["B", "KiB", "MiB", "GiB", "TiB", "PiB", "EiB", "ZiB", "YiB"]

/-- decimapAbbrs: the decimal abbreviation table of docker/go-units (the name
keeps the library's spelling). -/
def decimapAbbrs : List String :=
  ["B", "kB", "MB", "GB", "TB", "PB", "EB", "ZB", "YB"]

/-- sizeLoop: the scaling loop of `getSizeAndUnit`
(`for size >= base && i < unitsLimit { size = size / base; i++ }`), the fuel
argument being the number of remaining allowed divisions
(`unitsLimit - i`).  Returns the scaled value and the number of divisions
performed. -/
def sizeLoop (base : Int) : Int → Nat → Int × Nat
  | size, 0 => (size, 0)
  | size, fuel + 1 =>
    if base ≤ size then
      let p := sizeLoop base (size / base) fuel
      (p.1, p.2 + 1)
    else (size, 0)

/-- getSizeAndUnit from docker/go-units: scales the size down by the base
until it is below it (or the abbreviation table is exhausted) and returns the
scaled value with the selected abbreviation. -/
def getSizeAndUnit (size : Int) (base : Int) (abbrs : List String) : Int × String :=
  let p := sizeLoop base size (abbrs.length - 1)
  (p.1, abbrs.getD p.2 "")

/-- memUnitB: the unit abbreviation selected by `units.BytesSize` (binary
scheme, base 1024). -/
def memUnitB (n : Int) : String := (getSizeAndUnit n 1024 binaryAbbrs).2

/-- memUnitH: the unit abbreviation selected by `units.HumanSize` (decimal
scheme, base 1000). -/
def memUnitH (n : Int) : String := (getSizeAndUnit n 1000 decimapAbbrs).2

/-- bytesSize: `units.BytesSize` — scaled value immediately followed by the
binary abbreviation (the library prints `%.4g%s`; see the module note on the
digits of the scaled value). -/
def bytesSize (n : Int) : String :=
  toString (getSizeAndUnit n 1024 binaryAbbrs).1 ++ memUnitB n

/-- humanSize: `units.HumanSize` — scaled value immediately followed by the
decimal abbreviation. -/
def humanSize (n : Int) : String :=
  toString (getSizeAndUnit n 1000 decimapAbbrs).1 ++ memUnitH n

/-- unitSuffix: analysis helper, not part of the source — the unit scheme of
a rendered memory cell is read off by dropping the leading numeric part
(digits, decimal point, sign) of the cell text. -/
def unitSuffix (s : String) : String :=
  String.mk (s.data.dropWhile fun c => c.isDigit || c == '.' || c == '-')

/-! ## Table renderer (`loadFunctions` / `runFunctions`)

The renderer is embedded as a pure function from the table data to the list
of printed lines.  A line is a list of segments so that the cosmetic ANSI
style sequences emitted by `printDataRow` (`color` and `"\x1b[0m"`) stay
distinguishable from the visible text: the printed string is the
concatenation of all segments, the visible width counts only the text
segments. -/

/-- Seg: one piece of a printed line — either an ANSI style sequence
(zero-width on the terminal) or visible text. -/
inductive Seg where
  | sty (s : String) : Seg
  | txt (s : String) : Seg
deriving DecidableEq, Repr

/-- Seg.str: the characters actually written to the stream. -/
def Seg.str : Seg → String
  | .sty s => s
  | .txt s => s

/-- lineStr: the full printed text of a line, styles included. -/
def lineStr (segs : List Seg) : String := String.join (segs.map Seg.str)

/-- segVis: visible width of a segment — style sequences occupy no columns. -/
def segVis : Seg → Nat
  | .sty _ => 0
  | .txt s => s.length

/-- lineVisLen: the number of display characters of a line (its width in
terminal columns). -/
def lineVisLen (segs : List Seg) : Nat := (segs.map segVis).sum

/-- grayBg: the highlighted background style of `printDataRow`
(`"\x1b[48;5;238m"`, light gray background). -/
def grayBg : String := "\x1b[48;5;238m"

/-- resetSty: the style reset emitted after every cell (`"\x1b[0m"`). -/
def resetSty : String := "\x1b[0m"

/-- padRight: Go's `%-*s` — left-justify the cell and pad with spaces up to
the column width (no truncation when the cell is longer). -/
def padRight (s : String) (w : Nat) : String :=
  s ++ String.mk (List.replicate (w - s.length) ' ')

/-- repChar: Go's `strings.Repeat` for a single character. -/
def repChar (c : Char) (n : Nat) : String := String.mk (List.replicate n c)

/-- widenRow: the inner loop of the width computation of `loadFunctions`
(`for i, cell := range row { if len(cell) > columnWidths[i] { ... } }`),
walking the row and the width list in lockstep.  Go would panic with an index
out of range if a row were longer than the header; that unreachable case
returns the exhausted width list here. -/
def widenRow : List Nat → List String → List Nat
  | ws, [] => ws
  | [], _ :: _ => []
  | w :: ws, cell :: rest =>
    (if cell.length > w then cell.length else w) :: widenRow ws rest

/-- computeWidths: the column-width computation of `loadFunctions` —
`columnWidths := make([]int, len(tableData[0]))` followed by the update loop
over every row (header included). -/
def computeWidths (tableData : List (List String)) : List Nat :=
  tableData.foldl widenRow (List.replicate (tableData.headD []).length 0)

/-- dataRowSegs: `printDataRow` for a fixed color — prints `"│"`, then for
every cell the color, a space, the padded cell, a space, the style reset and
the closing `"│"` (format string `"%s %-*s \x1b[0m│"`).  The cells are walked
with the width of their column; a row longer than the width list would make
Go panic and is truncated by `zip`. -/
def dataRowSegs (widths : List Nat) (color : String) (row : List String) : List Seg :=
  Seg.txt "│" :: (row.zip widths).flatMap fun cw =>
    [Seg.sty color, Seg.txt (" " ++ padRight cw.1 cw.2 ++ " "), Seg.sty resetSty, Seg.txt "│"]

/-- delimBody: the loop body of the three delimiter printers — a run of
`width+2` dashes per column with the middle junction character between
consecutive columns (`if i < len(columnWidths)-1`). -/
def delimBody (mid : String) : List Nat → String
  | [] => ""
  | [w] => repChar '─' (w + 2)
  | w :: w2 :: ws => repChar '─' (w + 2) ++ mid ++ delimBody mid (w2 :: ws)

/-- delimLine: a full delimiter line — the left corner, the dashed body and
the right corner. -/
def delimLine (lft mid rgt : String) (widths : List Nat) : String :=
  lft ++ delimBody mid widths ++ rgt

/-- delimSegs: a delimiter line as a one-segment printed line (no styles). -/
def delimSegs (lft mid rgt : String) (widths : List Nat) : List Seg :=
  [Seg.txt (delimLine lft mid rgt widths)]

/-- bodyRowsSegs: the body loop of `runFunctions`
(`for _, row := range podTableData[1:] { printDataRow(row) }`) together with
the `alternateColor` state of the closure: a row printed with
`alternateColor = true` gets no color, with `false` the gray background, and
every call toggles the flag. -/
def bodyRowsSegs (widths : List Nat) : Bool → List (List String) → List (List Seg)
  | _, [] => []
  | alt, r :: rs =>
    dataRowSegs widths (if alt then "" else grayBg) r :: bodyRowsSegs widths (!alt) rs

/-- renderTable: `loadFunctions` followed by `runFunctions` — computes the
column widths from the whole table and prints, in order, the top delimiter,
the header row (printed through `printDataRow` while `alternateColor` is
still `true`, hence plain, flipping the flag to `false`), the header/body
delimiter, every body row with the alternating background, and the bottom
delimiter. -/
def renderTable (tableData : List (List String)) : List (List Seg) :=
  let widths := computeWidths tableData
  [delimSegs "┌" "┬" "┐" widths,
   dataRowSegs widths "" (tableData.headD []),
   delimSegs "├" "┼" "┤" widths]
  ++ bodyRowsSegs widths false tableData.tail
  ++ [delimSegs "└" "┴" "┘" widths]

/-- rowColor: the color `printDataRow` uses for the i-th row printed after
the state flag holds `alt` (the flag toggles on every call). -/
def rowColor (alt : Bool) (i : Nat) : String :=
  if i % 2 = 0 then (if alt then "" else grayBg) else (if alt then grayBg else "")

/-! ## Aggregation driver (`main`, `listNamespaceMetrics`, `printNamespaceMetrics`)

Fetch failures append the error to the shared error list and leave the
result empty (client-go returns a non-nil empty object alongside the error,
so the subsequent range loops simply have nothing to walk).  The metrics
clientset, whose construction failure leaves a nil pointer in Go, is carried
as an `Option Unit`: a fetch through `none` is the nil dereference and
aborts the run. -/

/-- RunResult: how a run of the process ends — an abnormal termination (a
nil-pointer dereference panic, non-zero exit status) or a normal
termination carrying the final table data and the accumulated error
list. -/
inductive RunResult where
  | panicked : RunResult
  | completed (tableData : List (List String)) (errs : List String) : RunResult
deriving DecidableEq, Repr

/-- RunResult.isCompleted: whether the run terminated normally. -/
def RunResult.isCompleted : RunResult → Bool
  | .panicked => false
  | .completed _ _ => true

/-- RunResult.tbl: the final table data of a normal run. -/
def RunResult.tbl : RunResult → List (List String)
  | .panicked => []
  | .completed t _ => t

/-- RunResult.errList: the accumulated error list of a normal run. -/
def RunResult.errList : RunResult → List String
  | .panicked => []
  | .completed _ e => e

/-- listHeader: the header row of the all-namespaces table (line 116). -/
def listHeader : List String :=
  ["Namespace", "Pods", "CPU Usage", "CPU Request", "CPU Limit",
   "Mem Usage", "Mem Request", "Mem Limit"]

/-- detailHeader: the header row of the single-namespace table (line 200). -/
def detailHeader : List String :=
  ["Pods", "Container", "CPU Usage", "CPU Request", "CPU Limit",
   "Mem Usage", "Mem Request", "Mem Limit"]

/-- addSample: lines 146-151 — one matching (declared container, usage
sample) pair adds the sample's usage and the declared container's
request/limit to the six accumulators. -/
def addSample (t : Totals) (container : Container) (cm : ContainerMetrics) : Totals :=
  { cpuUsage := t.cpuUsage + cm.cpuUsage
    cpuRequest := t.cpuRequest + container.cpuRequest
    cpuLimit := t.cpuLimit + container.cpuLimit
    memUsage := t.memUsage + cm.memUsage
    memRequest := t.memRequest + container.memRequest
    memLimit := t.memLimit + container.memLimit }

/-- addContainerMatches: lines 140-153 — walk the usage samples of the pod
and accumulate every sample whose name equals the declared container's
name. -/
def addContainerMatches (t : Totals) (container : Container)
    (cms : List ContainerMetrics) : Totals :=
  cms.foldl (fun t cm => if cm.name == container.name then addSample t container cm else t) t

/-- listContainersLoop: the `for _, container := range pod.Spec.Containers`
loop of `listNamespaceMetrics` (lines 135-154).  The per-pod metrics fetch is
issued inside this loop, once per declared container; a failed fetch appends
its error and contributes nothing, and a `none` metrics clientset is a nil
dereference at the `Get` call. -/
def listContainersLoop (env : K8sEnv) (mcs : Option Unit) (ns podName : String)
    (acc : Totals × List String) : List Container → Option (Totals × List String)
  | [] => some acc
  | c :: rest =>
    match mcs with
    | none => none
    | some _ =>
      match env.getPodMetricsR ns podName with
      | .error e => listContainersLoop env mcs ns podName (acc.1, acc.2 ++ [e]) rest
      | .ok cms => listContainersLoop env mcs ns podName (addContainerMatches acc.1 c cms, acc.2) rest

/-- listPodsLoop: the `for _, pod := range pods.Items` loop of
`listNamespaceMetrics` (lines 134-155). -/
def listPodsLoop (env : K8sEnv) (mcs : Option Unit) (ns : String)
    (acc : Totals × List String) : List Pod → Option (Totals × List String)
  | [] => some acc
  | p :: rest =>
    match listContainersLoop env mcs ns p.name acc p.containers with
    | none => none
    | some acc2 => listPodsLoop env mcs ns acc2 rest

/-- nsRow: line 165 — the summary row of one namespace. -/
def nsRow (ns : String) (podCount : Nat) (t : Totals) : List String :=
  [ns, toString podCount,
   toString t.cpuUsage ++ " m", toString t.cpuRequest ++ " m", toString t.cpuLimit ++ " m",
   bytesSize t.memUsage, bytesSize t.memRequest, bytesSize t.memLimit]

/-- nsStep: the body of the `for _, namespace := range namespaces` loop of
`listNamespaceMetrics` (lines 118-167): list the pods (recording a failure
and leaving the list empty), and when at least one pod is present accumulate
the six totals over all pods and append the namespace row. -/
def nsStep (env : K8sEnv) (mcs : Option Unit)
    (acc : List (List String) × List String) (ns : String) :
    Option (List (List String) × List String) :=
  let pe : List Pod × List String :=
    match env.listPodsR ns with
    | .error e => ([], acc.2 ++ [e])
    | .ok ps => (ps, acc.2)
  if pe.1.length ≠ 0 then
    match listPodsLoop env mcs ns (Totals.zero, pe.2) pe.1 with
    | none => none
    | some (t, errs2) => some (acc.1 ++ [nsRow ns pe.1.length t], errs2)
  else some (acc.1, pe.2)

/-- listNsLoop: the outer namespace loop of `listNamespaceMetrics`. -/
def listNsLoop (env : K8sEnv) (mcs : Option Unit)
    (acc : List (List String) × List String) :
    List String → Option (List (List String) × List String)
  | [] => some acc
  | ns :: rest =>
    match nsStep env mcs acc ns with
    | none => none
    | some acc2 => listNsLoop env mcs acc2 rest

/-- listNamespaceMetrics: the list (all-namespaces) mode — seed the table
with the header row, run the namespace loop and return the final table and
error list (the table is rendered by `runFunctions` afterwards). -/
def listNamespaceMetrics (env : K8sEnv) (mcs : Option Unit)
    (namespaces : List String) (errs : List String) : RunResult :=
  match listNsLoop env mcs ([listHeader], errs) namespaces with
  | none => .panicked
  | some (tbl, errs2) => .completed tbl errs2

/-- defaultContainer: the zero value of `corev1.Container` that
`containerSpec` keeps when no declared container matches the sample name
(lines 220-226 leave the zero value in place). -/
def defaultContainer : Container := ⟨"", 0, 0, 0, 0⟩

/-- mkRecord: lines 235-241 — the six quantities of one emitted container:
usage from the metrics sample, request/limit from the matched declared
container spec. -/
def mkRecord (podName : String) (cm : ContainerMetrics) (spec : Container) : ContainerRecord :=
  { podName := podName, name := cm.name
    cpuUsage := cm.cpuUsage, cpuRequest := spec.cpuRequest, cpuLimit := spec.cpuLimit
    memUsage := cm.memUsage, memRequest := spec.memRequest, memLimit := spec.memLimit }

/-- recordRow: lines 244-253 — the table row of one emitted container: pod
name, container name, the three CPU quantities as `"%d m"` and the three
memory quantities through `units.BytesSize`. -/
def recordRow (r : ContainerRecord) : List String :=
  [r.podName, r.name,
   toString r.cpuUsage ++ " m", toString r.cpuRequest ++ " m", toString r.cpuLimit ++ " m",
   bytesSize r.memUsage, bytesSize r.memRequest, bytesSize r.memLimit]

/-- addRecord: lines 258-263 — add the six quantities of an emitted
container to the running totals. -/
def addRecord (t : Totals) (r : ContainerRecord) : Totals :=
  { cpuUsage := t.cpuUsage + r.cpuUsage
    cpuRequest := t.cpuRequest + r.cpuRequest
    cpuLimit := t.cpuLimit + r.cpuLimit
    memUsage := t.memUsage + r.memUsage
    memRequest := t.memRequest + r.memRequest
    memLimit := t.memLimit + r.memLimit }

/-- addAll: fold `addRecord` over a record list. -/
def addAll (t : Totals) (recs : List ContainerRecord) : Totals :=
  recs.foldl addRecord t

/-- detailContainerStep: the body of the
`for _, containerMetrics := range podMetrics.Containers` loop of
`printNamespaceMetrics` (lines 213-264): look the sample's name up in the
declared containers (first match wins, the Go loop breaks), skip the sample
when the found spec still has the zero value's empty name (line 228), and
otherwise append the row and add the six quantities to the totals. -/
def detailContainerStep (pod : Pod) (acc : List (List String) × Totals)
    (cm : ContainerMetrics) : List (List String) × Totals :=
  let containerSpec := (pod.containers.find? fun c => c.name == cm.name).getD defaultContainer
  if containerSpec.name = "" then acc
  else
    let r := mkRecord pod.name cm containerSpec
    (acc.1 ++ [recordRow r], addRecord acc.2 r)

/-- correlate: the record correlator of the spec's data model — the
ContainerRecords that the container loop of `printNamespaceMetrics` emits
for one pod from one list of usage samples. -/
def correlate (pod : Pod) (cms : List ContainerMetrics) : List ContainerRecord :=
  cms.filterMap fun cm =>
    let spec := (pod.containers.find? fun c => c.name == cm.name).getD defaultContainer
    if spec.name = "" then none else some (mkRecord pod.name cm spec)

/-- detailPodsLoop: the `for _, pod := range pods.Items` loop of
`printNamespaceMetrics` (lines 202-265): fetch the pod's metrics once
(recording a failure, whose empty result makes the container loop a no-op),
then run the container loop.  A `none` metrics clientset is a nil
dereference at the `Get` call. -/
def detailPodsLoop (env : K8sEnv) (mcs : Option Unit) (ns : String)
    (acc : List (List String) × Totals × List String) :
    List Pod → Option (List (List String) × Totals × List String)
  | [] => some acc
  | p :: rest =>
    match mcs with
    | none => none
    | some _ =>
      match env.getPodMetricsR ns p.name with
      | .error e => detailPodsLoop env mcs ns (acc.1, acc.2.1, acc.2.2 ++ [e]) rest
      | .ok cms =>
        let rt := cms.foldl (detailContainerStep p) (acc.1, acc.2.1)
        detailPodsLoop env mcs ns (rt.1, rt.2, acc.2.2) rest

/-- totalRow: lines 267-285 — the synthetic trailing Total row: the summed
CPU quantities as `"%d m"` and the summed memory quantities through
`units.HumanSize`. -/
def totalRow (t : Totals) : List String :=
  ["Total", "",
   toString t.cpuUsage ++ " m", toString t.cpuRequest ++ " m", toString t.cpuLimit ++ " m",
   humanSize t.memUsage, humanSize t.memRequest, humanSize t.memLimit]

/-- printNamespaceMetrics: the detail (single-namespace) mode — list the
pods of the namespace (recording a failure and leaving the list empty), seed
the table with the header row, run the pod loop and append the Total
row. -/
def printNamespaceMetrics (env : K8sEnv) (mcs : Option Unit)
    (ns : String) (errs : List String) : RunResult :=
  let pe : List Pod × List String :=
    match env.listPodsR ns with
    | .error e => ([], errs ++ [e])
    | .ok ps => (ps, errs)
  match detailPodsLoop env mcs ns ([detailHeader], Totals.zero, pe.2) pe.1 with
  | none => .panicked
  | some (tbl, t, errs2) => .completed (tbl ++ [totalRow t]) errs2

/-- mainRun: `main` of `kram.go`.  Every construction failure is appended to
the error list and execution continues (there is no explicit exit in the
source); a failed config construction leaves a nil config whose dereference
inside `kubernetes.NewForConfig` aborts at once, a failed core clientset
aborts at its first listing call, and a failed metrics clientset is carried
into the chosen mode where its first `Get` aborts.  The mode is chosen by
whether the positional argument is empty. -/
def mainRun (env : K8sEnv) (argument : String) : RunResult :=
  match env.buildConfig with
  | .error _ => .panicked
  | .ok _ =>
    let errs0 : List String := []
    let ce : Option Unit × List String :=
      match env.newClientset with
      | .error e => (none, errs0 ++ [e])
      | .ok _ => (some (), errs0)
    let me : Option Unit × List String :=
      match env.newMetricsClientset with
      | .error e => (none, ce.2 ++ [e])
      | .ok _ => (some (), ce.2)
    if argument = "" then
      match ce.1 with
      | none => .panicked
      | some _ =>
        let nse : List String × List String :=
          match env.listNamespacesR with
          | .error e => ([], me.2 ++ [e])
          | .ok l => (l, me.2)
        listNamespaceMetrics env me.1 nse.1 nse.2
    else
      match ce.1 with
      | none => .panicked
      | some _ => printNamespaceMetrics env me.1 argument me.2

/-- errorSection: lines 96-101 — after the table, when the error list is
non-empty, print a blank line, the `"Error(s) :"` caption and one line per
recorded error, numbered from 1 in append order. -/
def errorSection (errs : List String) : List String :=
  if errs.length > 0 then
    "" :: "Error(s) :" :: (errs.enum.map fun p => toString (p.1 + 1) ++ ". " ++ p.2)
  else []

/-- mainOutput: the user-visible lines of a normal run — the rendered table
followed by the error section. -/
def mainOutput (r : RunResult) : List String :=
  (renderTable r.tbl).map lineStr ++ errorSection r.errList

/-! ## Specification-side views of a run

These definitions restate, in direct map/filter/flatMap form, what the
operational loops above compute; the theorems below prove the
correspondence. -/

/-- podsOf: the pods a namespace listing yields — empty when the fetch
fails. -/
def podsOf (env : K8sEnv) (ns : String) : List Pod :=
  match env.listPodsR ns with
  | .ok ps => ps
  | .error _ => []

/-- metricsOf: the usage samples a pod metrics fetch yields — empty when the
fetch fails. -/
def metricsOf (env : K8sEnv) (ns podName : String) : List ContainerMetrics :=
  match env.getPodMetricsR ns podName with
  | .ok cms => cms
  | .error _ => []

/-- podFetchErr: the error entries one pod metrics fetch contributes. -/
def podFetchErr (env : K8sEnv) (ns podName : String) : List String :=
  match env.getPodMetricsR ns podName with
  | .ok _ => []
  | .error e => [e]

/-- listPodsErr: the error entries one pod listing contributes. -/
def listPodsErr (env : K8sEnv) (ns : String) : List String :=
  match env.listPodsR ns with
  | .ok _ => []
  | .error e => [e]

/-- nssOf: the namespaces the namespace listing yields — empty when the
fetch fails. -/
def nssOf (env : K8sEnv) : List String :=
  match env.listNamespacesR with
  | .ok l => l
  | .error _ => []

/-- nsListErr: the error entries the namespace listing contributes. -/
def nsListErr (env : K8sEnv) : List String :=
  match env.listNamespacesR with
  | .ok _ => []
  | .error e => [e]

/-- detailRecords: all ContainerRecords of a detail-mode run — per pod, the
correlation of its declared containers with its usage samples. -/
def detailRecords (env : K8sEnv) (ns : String) : List ContainerRecord :=
  (podsOf env ns).flatMap fun p => correlate p (metricsOf env ns p.name)

/-- detailErrs: all fetch errors of a detail-mode run, in fetch order — the
pod listing's, then one entry per failed pod metrics fetch. -/
def detailErrs (env : K8sEnv) (ns : String) : List String :=
  listPodsErr env ns ++ (podsOf env ns).flatMap fun p => podFetchErr env ns p.name

/-- listModeNsErrs: all fetch errors one namespace contributes in list mode,
in fetch order — the pod listing's, then one entry per declared container of
each pod whose metrics fetch failed (the fetch is issued inside the
container loop). -/
def listModeNsErrs (env : K8sEnv) (ns : String) : List String :=
  listPodsErr env ns ++
    (podsOf env ns).flatMap fun p => p.containers.flatMap fun _ => podFetchErr env ns p.name

/-- nsTotalsOf: the six list-mode totals of one namespace — for every pod
and every declared container, the accumulated matching usage samples. -/
def nsTotalsOf (env : K8sEnv) (ns : String) : Totals :=
  (podsOf env ns).foldl
    (fun t p => p.containers.foldl
      (fun t c => addContainerMatches t c (metricsOf env ns p.name)) t)
    Totals.zero

/-- mainTableOf: the final table of a run whose constructions all
succeeded — in list mode the header plus one row per namespace with at
least one pod; in detail mode the header, one row per correlated container
record, and the Total row. -/
def mainTableOf (env : K8sEnv) (arg : String) : List (List String) :=
  if arg = "" then
    listHeader ::
      ((nssOf env).filter fun ns => !(podsOf env ns).isEmpty).map
        (fun ns => nsRow ns (podsOf env ns).length (nsTotalsOf env ns))
  else
    detailHeader ::
      ((detailRecords env arg).map recordRow
        ++ [totalRow (addAll Totals.zero (detailRecords env arg))])

/-- fetchErrorsOf: every fetch error of a run whose constructions all
succeeded, in fetch (append) order. -/
def fetchErrorsOf (env : K8sEnv) (arg : String) : List String :=
  if arg = "" then nsListErr env ++ (nssOf env).flatMap (listModeNsErrs env)
  else detailErrs env arg

/-! ## Formatter lemmas -/

/-- sizeLoop performs at most `fuel` divisions. -/
lemma sizeLoop_snd_le (base : Int) : ∀ (size : Int) (fuel : Nat),
    (sizeLoop base size fuel).2 ≤ fuel := by
  intro size fuel
  induction fuel generalizing size with
  | zero => simp [sizeLoop]
  | succ f ih =>
    simp only [sizeLoop]
    split
    · exact Nat.succ_le_succ (ih _)
    · exact Nat.zero_le _

/-- The abbreviation selected by getSizeAndUnit always comes from the given
table (when the table is non-empty). -/
lemma getSizeAndUnit_snd_mem (size base : Int) (abbrs : List String)
    (h : abbrs ≠ []) : (getSizeAndUnit size base abbrs).2 ∈ abbrs := by
  have hl : 0 < abbrs.length := List.length_pos.mpr h
  have hle : (sizeLoop base size (abbrs.length - 1)).2 < abbrs.length := by
    have := sizeLoop_snd_le base size (abbrs.length - 1)
    omega
  simp only [getSizeAndUnit, List.getD_eq_getElem?_getD, List.getElem?_eq_getElem hle,
    Option.getD_some]
  exact List.getElem_mem hle

/-- The unit of `units.BytesSize` always belongs to the binary table. -/
lemma memUnitB_mem (n : Int) : memUnitB n ∈ binaryAbbrs :=
  getSizeAndUnit_snd_mem n 1024 binaryAbbrs (by simp [binaryAbbrs])

/-- The unit of `units.HumanSize` always belongs to the decimal table. -/
lemma memUnitH_mem (n : Int) : memUnitH n ∈ decimapAbbrs :=
  getSizeAndUnit_snd_mem n 1000 decimapAbbrs (by simp [decimapAbbrs])

/-! ## Detail-mode characterization lemmas -/

/-- The container loop of `printNamespaceMetrics` appends exactly one row
per correlated record and adds exactly those records to the totals. -/
lemma detail_containers_fold (pod : Pod) :
    ∀ (cms : List ContainerMetrics) (tbl : List (List String)) (t : Totals),
    cms.foldl (detailContainerStep pod) (tbl, t)
      = (tbl ++ (correlate pod cms).map recordRow, addAll t (correlate pod cms)) := by
  intro cms
  induction cms with
  | nil => intro tbl t; simp [correlate, addAll]
  | cons cm cms ih =>
    intro tbl t
    by_cases h :
        ((pod.containers.find? fun c => c.name == cm.name).getD defaultContainer).name = ""
    · have hstep : detailContainerStep pod (tbl, t) cm = (tbl, t) := by
        simp [detailContainerStep, h]
      have hcor : correlate pod (cm :: cms) = correlate pod cms := by
        simp [correlate, List.filterMap_cons, h]
      simp only [List.foldl_cons, hstep, hcor]
      exact ih tbl t
    · have hstep : detailContainerStep pod (tbl, t) cm
          = (tbl ++ [recordRow (mkRecord pod.name cm
              ((pod.containers.find? fun c => c.name == cm.name).getD defaultContainer))],
             addRecord t (mkRecord pod.name cm
              ((pod.containers.find? fun c => c.name == cm.name).getD defaultContainer))) := by
        simp [detailContainerStep, h]
      have hcor : correlate pod (cm :: cms)
          = mkRecord pod.name cm
              ((pod.containers.find? fun c => c.name == cm.name).getD defaultContainer)
            :: correlate pod cms := by
        simp [correlate, List.filterMap_cons, h]
      simp only [List.foldl_cons, hstep, hcor]
      rw [ih]
      simp [addAll, List.append_assoc]

/-- The pod loop of `printNamespaceMetrics` with a live metrics clientset
never aborts: it appends the rows of every pod's correlated records,
accumulates exactly those records and records one error per failed metrics
fetch, in pod order. -/
lemma detailPodsLoop_eq (env : K8sEnv) (ns : String) :
    ∀ (ps : List Pod) (tbl : List (List String)) (t : Totals) (errs : List String),
    detailPodsLoop env (some ()) ns (tbl, t, errs) ps
      = some (tbl ++ ((ps.flatMap fun p => correlate p (metricsOf env ns p.name)).map recordRow),
              addAll t (ps.flatMap fun p => correlate p (metricsOf env ns p.name)),
              errs ++ ps.flatMap fun p => podFetchErr env ns p.name) := by
  intro ps
  induction ps with
  | nil => intro tbl t errs; simp [detailPodsLoop, addAll]
  | cons p ps ih =>
    intro tbl t errs
    cases hm : env.getPodMetricsR ns p.name with
    | error e =>
      have hmo : metricsOf env ns p.name = [] := by simp [metricsOf, hm]
      have hpe : podFetchErr env ns p.name = [e] := by simp [podFetchErr, hm]
      simp only [detailPodsLoop, hm]
      rw [ih]
      simp [hmo, hpe, correlate]
    | ok cms =>
      have hmo : metricsOf env ns p.name = cms := by simp [metricsOf, hm]
      have hpe : podFetchErr env ns p.name = [] := by simp [podFetchErr, hm]
      simp only [detailPodsLoop, hm]
      rw [detail_containers_fold, ih]
      simp [hmo, hpe, addAll, List.foldl_append, List.append_assoc]

/-- printNamespaceMetrics with a live metrics clientset terminates normally
with the header, one row per correlated record, the Total row of the
accumulated records, and the fetch errors in order. -/
lemma printNamespaceMetrics_eq (env : K8sEnv) (ns : String) (errs : List String) :
    printNamespaceMetrics env (some ()) ns errs
      = .completed
          (detailHeader :: ((detailRecords env ns).map recordRow
            ++ [totalRow (addAll Totals.zero (detailRecords env ns))]))
          (errs ++ detailErrs env ns) := by
  cases hl : env.listPodsR ns with
  | error e =>
    have h1 : podsOf env ns = [] := by simp [podsOf, hl]
    simp [printNamespaceMetrics, hl, detailPodsLoop, detailRecords, detailErrs, h1,
      listPodsErr, addAll]
  | ok ps =>
    have h1 : podsOf env ns = ps := by simp [podsOf, hl]
    simp only [printNamespaceMetrics, hl]
    rw [detailPodsLoop_eq]
    simp [detailRecords, detailErrs, h1, listPodsErr, hl]

/-- The running totals after folding records are the componentwise sums. -/
lemma addAll_fields : ∀ (recs : List ContainerRecord) (t : Totals),
    (addAll t recs).cpuUsage = t.cpuUsage + (recs.map fun r => r.cpuUsage).sum
  ∧ (addAll t recs).cpuRequest = t.cpuRequest + (recs.map fun r => r.cpuRequest).sum
  ∧ (addAll t recs).cpuLimit = t.cpuLimit + (recs.map fun r => r.cpuLimit).sum
  ∧ (addAll t recs).memUsage = t.memUsage + (recs.map fun r => r.memUsage).sum
  ∧ (addAll t recs).memRequest = t.memRequest + (recs.map fun r => r.memRequest).sum
  ∧ (addAll t recs).memLimit = t.memLimit + (recs.map fun r => r.memLimit).sum := by
  intro recs
  induction recs with
  | nil => intro t; simp [addAll]
  | cons r recs ih =>
    intro t
    have h : addAll t (r :: recs) = addAll (addRecord t r) recs := by
      simp [addAll]
    obtain ⟨h1, h2, h3, h4, h5, h6⟩ := ih (addRecord t r)
    refine ⟨?_, ?_, ?_, ?_, ?_, ?_⟩
    · rw [h, h1]; simp [addRecord, List.map_cons, List.sum_cons]; omega
    · rw [h, h2]; simp [addRecord, List.map_cons, List.sum_cons]; omega
    · rw [h, h3]; simp [addRecord, List.map_cons, List.sum_cons]; omega
    · rw [h, h4]; simp [addRecord, List.map_cons, List.sum_cons]; omega
    · rw [h, h5]; simp [addRecord, List.map_cons, List.sum_cons]; omega
    · rw [h, h6]; simp [addRecord, List.map_cons, List.sum_cons]; omega

/-- C6: in pod-detail mode every ContainerRecord emits exactly one table
row (the body between the header and the Total row is the record list
mapped through `recordRow`), and each of the six quantities of the trailing
Total row is the sum of that quantity over the emitted records — containers
the correlator skipped are absent from the record list and therefore
contribute nothing. -/
theorem c6_detail_rows_and_totals :
    (∀ (env : K8sEnv) (ns : String) (errs : List String),
      printNamespaceMetrics env (some ()) ns errs
        = .completed
            (detailHeader :: ((detailRecords env ns).map recordRow
              ++ [totalRow (addAll Totals.zero (detailRecords env ns))]))
            (errs ++ detailErrs env ns))
    ∧ (∀ recs : List ContainerRecord,
        (addAll Totals.zero recs).cpuUsage = (recs.map fun r => r.cpuUsage).sum
      ∧ (addAll Totals.zero recs).cpuRequest = (recs.map fun r => r.cpuRequest).sum
      ∧ (addAll Totals.zero recs).cpuLimit = (recs.map fun r => r.cpuLimit).sum
      ∧ (addAll Totals.zero recs).memUsage = (recs.map fun r => r.memUsage).sum
      ∧ (addAll Totals.zero recs).memRequest = (recs.map fun r => r.memRequest).sum
      ∧ (addAll Totals.zero recs).memLimit = (recs.map fun r => r.memLimit).sum) := by
  constructor
  · intro env ns errs
    exact printNamespaceMetrics_eq env ns errs
  · intro recs
    obtain ⟨h1, h2, h3, h4, h5, h6⟩ := addAll_fields recs Totals.zero
    refine ⟨?_, ?_, ?_, ?_, ?_, ?_⟩
    · rw [h1]; simp [Totals.zero]
    · rw [h2]; simp [Totals.zero]
    · rw [h3]; simp [Totals.zero]
    · rw [h4]; simp [Totals.zero]
    · rw [h5]; simp [Totals.zero]
    · rw [h6]; simp [Totals.zero]

/-- cenvC1: a concrete environment for the detail mode — one pod with one
declared container using 100 milli-CPU and 52428800 bytes (50 MiB) of
memory. -/
def cenvC1 : K8sEnv :=
  { buildConfig := .ok ()
    newClientset := .ok ()
    newMetricsClientset := .ok ()
    listNamespacesR := .ok []
    listPodsR := fun _ => .ok [⟨"pod1", [⟨"app", 200, 300, 104857600, 157286400⟩]⟩]
    getPodMetricsR := fun _ _ => .ok [⟨"app", 100, 52428800⟩] }

/-- C1 is false on the code: in the pod-detail run over `cenvC1` the
per-container row renders its memory usage with the binary unit `MiB`
(`units.BytesSize`) while the trailing Total row renders the same total
with the decimal unit `MB` (`units.HumanSize`) — two different unit schemes
inside one run and one column. -/
theorem c1_counterexample :
    unitSuffix (((mainRun cenvC1 "ns").tbl.getD 1 []).getD 5 "") = "MiB"
  ∧ unitSuffix (((mainRun cenvC1 "ns").tbl.getD 2 []).getD 5 "") = "MB"
  ∧ "MiB" ∈ binaryAbbrs ∧ "MiB" ∉ decimapAbbrs
  ∧ "MB" ∈ decimapAbbrs ∧ "MB" ∉ binaryAbbrs
  ∧ (mainRun cenvC1 "ns").isCompleted = true := by
  decide

/-- C1 amended: the two memory unit schemes ARE mixed within a pod-detail
run — every per-container row memory cell comes from `units.BytesSize`,
whose unit is always one of the binary abbreviations, while every Total-row
memory cell comes from `units.HumanSize`, whose unit is always one of the
decimal abbreviations; apart from the shared smallest unit `B`, no binary
abbreviation is a decimal one. -/
theorem c1_amended :
    (∀ (env : K8sEnv) (ns : String) (errs : List String),
      (printNamespaceMetrics env (some ()) ns errs).tbl
        = detailHeader :: ((detailRecords env ns).map recordRow
            ++ [totalRow (addAll Totals.zero (detailRecords env ns))]))
    ∧ (∀ r : ContainerRecord,
        (recordRow r).getD 5 "" = bytesSize r.memUsage
      ∧ (recordRow r).getD 6 "" = bytesSize r.memRequest
      ∧ (recordRow r).getD 7 "" = bytesSize r.memLimit)
    ∧ (∀ t : Totals,
        (totalRow t).getD 5 "" = humanSize t.memUsage
      ∧ (totalRow t).getD 6 "" = humanSize t.memRequest
      ∧ (totalRow t).getD 7 "" = humanSize t.memLimit)
    ∧ (∀ v : Int, memUnitB v ∈ binaryAbbrs)
    ∧ (∀ v : Int, memUnitH v ∈ decimapAbbrs)
    ∧ (binaryAbbrs.all fun u => u == "B" || !(decimapAbbrs.contains u)) = true := by
  refine ⟨?_, ?_, ?_, memUnitB_mem, memUnitH_mem, by decide⟩
  · intro env ns errs
    rw [printNamespaceMetrics_eq]
    rfl
  · intro r
    exact ⟨rfl, rfl, rfl⟩
  · intro t
    exact ⟨rfl, rfl, rfl⟩

/-! ## Correlator (C4) -/

/-- podEmptyName: a pod that declares a container whose name is the empty
string — the zero value the correlator uses as its not-found sentinel. -/
def podEmptyName : Pod := ⟨"p", [⟨"", 1, 2, 3, 4⟩]⟩

/-- C4 is false on the code as universally stated: the usage sample named
`""` matches the declared container named `""`, yet the correlator emits no
record for it, because the emptiness test of line 228 (`containerSpec.Name
== ""`) cannot distinguish a matched empty-named container from the
not-found zero value. -/
theorem c4_counterexample :
    correlate podEmptyName [⟨"", 7, 9⟩] = []
  ∧ ((podEmptyName.containers.map Container.name).contains "") = true := by
  decide

/-- contA: declared container A of the claim's instance. -/
def contA : Container := ⟨"A", 200, 300, 104857600, 157286400⟩

/-- contB: declared container B of the claim's instance. -/
def contB : Container := ⟨"B", 10, 20, 30, 40⟩

/-- podAB: a pod declaring containers {A, B}. -/
def podAB : Pod := ⟨"pab", [contA, contB]⟩

/-- cmA: a usage sample for container A. -/
def cmA : ContainerMetrics := ⟨"A", 100, 52428800⟩

/-- cmC: a usage sample for an undeclared container C. -/
def cmC : ContainerMetrics := ⟨"C", 5, 6⟩

/-- C4 amended: the correlator produces one ContainerRecord per usage sample
whose name is non-empty and matches a declared container name (the record
taking its request/limit from the first matching declared container), and
nothing else; in particular, for declared containers {A, B} and usage
samples {A, C}, only A yields a record — B and C are absent. -/
theorem c4_amended :
    (∀ (pod : Pod) (cms : List ContainerMetrics),
      correlate pod cms = cms.filterMap fun cm =>
        if cm.name = "" then none
        else (pod.containers.find? fun c => c.name == cm.name).map fun c =>
          mkRecord pod.name cm c)
    ∧ correlate podAB [cmA, cmC] = [mkRecord "pab" cmA contA] := by
  constructor
  · intro pod cms
    unfold correlate
    congr 1
    funext cm
    cases hf : pod.containers.find? fun c => c.name == cm.name with
    | none => simp [hf, defaultContainer]
    | some c =>
      have hname : c.name = cm.name := by
        have hp := List.find?_some hf
        simpa using hp
      simp [hf, hname]
  · decide

/-! ## List-mode characterization lemmas -/

/-- Folding `addContainerMatches` with an empty sample list changes
nothing. -/
lemma foldl_addContainerMatches_nil :
    ∀ (cs : List Container) (t : Totals),
    cs.foldl (fun t c => addContainerMatches t c ([] : List ContainerMetrics)) t = t := by
  intro cs
  induction cs with
  | nil => intro t; rfl
  | cons c cs ih => intro t; exact ih t

/-- A constant singleton flatMap is a replicate of the list's length. -/
lemma flatMap_const_singleton {α : Type} (e : String) :
    ∀ (l : List α), (l.flatMap fun _ => [e]) = List.replicate l.length e := by
  intro l
  induction l with
  | nil => rfl
  | cons a l ih => simp [List.flatMap_cons, ih, List.replicate_succ]

/-- The container loop of `listNamespaceMetrics` with a live metrics
clientset never aborts: it accumulates, per declared container, every
matching usage sample of the pod's (re-fetched) metrics, and records the
fetch error once per declared container when the fetch fails. -/
lemma listContainersLoop_eq (env : K8sEnv) (ns podName : String) :
    ∀ (cs : List Container) (t : Totals) (errs : List String),
    listContainersLoop env (some ()) ns podName (t, errs) cs
      = some (cs.foldl (fun t c => addContainerMatches t c (metricsOf env ns podName)) t,
              errs ++ cs.flatMap fun _ => podFetchErr env ns podName) := by
  intro cs
  induction cs with
  | nil => intro t errs; simp [listContainersLoop]
  | cons c cs ih =>
    intro t errs
    cases hm : env.getPodMetricsR ns podName with
    | error e =>
      have hmo : metricsOf env ns podName = [] := by simp [metricsOf, hm]
      have hpe : podFetchErr env ns podName = [e] := by simp [podFetchErr, hm]
      simp only [listContainersLoop, hm]
      rw [ih]
      simp [hmo, hpe, addContainerMatches]
    | ok cms =>
      have hmo : metricsOf env ns podName = cms := by simp [metricsOf, hm]
      have hpe : podFetchErr env ns podName = [] := by simp [podFetchErr, hm]
      simp only [listContainersLoop, hm]
      rw [ih]
      simp [hmo, hpe]

/-- The pod loop of `listNamespaceMetrics` with a live metrics clientset
never aborts and accumulates pod by pod, container by container. -/
lemma listPodsLoop_eq (env : K8sEnv) (ns : String) :
    ∀ (ps : List Pod) (t : Totals) (errs : List String),
    listPodsLoop env (some ()) ns (t, errs) ps
      = some (ps.foldl
                (fun t p => p.containers.foldl
                  (fun t c => addContainerMatches t c (metricsOf env ns p.name)) t) t,
              errs ++ ps.flatMap fun p =>
                p.containers.flatMap fun _ => podFetchErr env ns p.name) := by
  intro ps
  induction ps with
  | nil => intro t errs; simp [listPodsLoop]
  | cons p ps ih =>
    intro t errs
    simp only [listPodsLoop, listContainersLoop_eq, ih]
    simp [List.flatMap_cons, List.append_assoc]

/-- One namespace step of list mode: the row is appended exactly when the
pod listing yielded at least one pod, and the namespace's fetch errors are
appended in order. -/
lemma nsStep_eq (env : K8sEnv) (ns : String) (tbl : List (List String))
    (errs : List String) :
    nsStep env (some ()) (tbl, errs) ns
      = some (tbl ++ (if (podsOf env ns).isEmpty then []
                      else [nsRow ns (podsOf env ns).length (nsTotalsOf env ns)]),
              errs ++ listModeNsErrs env ns) := by
  cases hl : env.listPodsR ns with
  | error e =>
    have h1 : podsOf env ns = [] := by simp [podsOf, hl]
    simp [nsStep, hl, h1, listModeNsErrs, listPodsErr]
  | ok ps =>
    have h1 : podsOf env ns = ps := by simp [podsOf, hl]
    cases ps with
    | nil => simp [nsStep, hl, h1, listModeNsErrs, listPodsErr]
    | cons p ps2 =>
      simp only [nsStep, hl]
      rw [listPodsLoop_eq]
      simp [h1, listModeNsErrs, listPodsErr, hl, nsTotalsOf]

/-- The namespace loop of list mode appends one row per namespace with at
least one pod, in order, and accumulates every namespace's fetch errors in
order. -/
lemma listNsLoop_eq (env : K8sEnv) :
    ∀ (nss : List String) (tbl : List (List String)) (errs : List String),
    listNsLoop env (some ()) (tbl, errs) nss
      = some (tbl ++ (nss.filter fun ns => !(podsOf env ns).isEmpty).map
                (fun ns => nsRow ns (podsOf env ns).length (nsTotalsOf env ns)),
              errs ++ nss.flatMap (listModeNsErrs env)) := by
  intro nss
  induction nss with
  | nil => intro tbl errs; simp [listNsLoop]
  | cons ns nss ih =>
    intro tbl errs
    simp only [listNsLoop, nsStep_eq, ih]
    by_cases h : (podsOf env ns).isEmpty
    · simp [h, List.filter_cons, List.flatMap_cons, List.append_assoc]
    · simp [h, List.filter_cons, List.flatMap_cons, List.append_assoc]

/-- listNamespaceMetrics with a live metrics clientset terminates normally
with the header row followed by one row per namespace whose pod listing
yielded at least one pod. -/
lemma listNamespaceMetrics_eq (env : K8sEnv) (nss : List String) (errs : List String) :
    listNamespaceMetrics env (some ()) nss errs
      = .completed
          (listHeader :: (nss.filter fun ns => !(podsOf env ns).isEmpty).map
            (fun ns => nsRow ns (podsOf env ns).length (nsTotalsOf env ns)))
          (errs ++ nss.flatMap (listModeNsErrs env)) := by
  simp only [listNamespaceMetrics]
  rw [listNsLoop_eq]
  simp

/-- C8: in list mode a namespace row is appended if and only if the pod
listing of that namespace returned at least one pod (a failed listing
returns none): the final table is the header followed by exactly one row
per namespace with a non-empty pod list, in listing order; zero-pod
namespaces are omitted entirely. -/
theorem c8_list_rows :
    ∀ (env : K8sEnv) (nss : List String) (errs : List String),
    listNamespaceMetrics env (some ()) nss errs
      = .completed
          (listHeader :: (nss.filter fun ns => !(podsOf env ns).isEmpty).map
            (fun ns => nsRow ns (podsOf env ns).length (nsTotalsOf env ns)))
          (errs ++ nss.flatMap (listModeNsErrs env)) :=
  listNamespaceMetrics_eq

/-- C10: in list mode the metrics fetch is issued inside the declared
container loop, so a pod whose metrics lookup fails contributes exactly one
error entry per declared container: the loop leaves the totals unchanged
and appends `pod.containers.length` copies of the error. -/
theorem c10_fetch_per_container :
    ∀ (env : K8sEnv) (ns : String) (pod : Pod) (t : Totals) (errs : List String) (e : String),
    env.getPodMetricsR ns pod.name = .error e →
    listContainersLoop env (some ()) ns pod.name (t, errs) pod.containers
      = some (t, errs ++ List.replicate pod.containers.length e) := by
  intro env ns pod t errs e hm
  rw [listContainersLoop_eq]
  have hmo : metricsOf env ns pod.name = [] := by simp [metricsOf, hm]
  have hpe : podFetchErr env ns pod.name = [e] := by simp [podFetchErr, hm]
  rw [hmo, hpe, foldl_addContainerMatches_nil, flatMap_const_singleton]

/-- podC10: a pod with two declared containers. -/
def podC10 : Pod := ⟨"p10", [⟨"c1", 1, 2, 3, 4⟩, ⟨"c2", 5, 6, 7, 8⟩]⟩

/-- cenvC10: an environment whose metrics source always fails. -/
def cenvC10 : K8sEnv :=
  { buildConfig := .ok ()
    newClientset := .ok ()
    newMetricsClientset := .ok ()
    listNamespacesR := .ok ["ns"]
    listPodsR := fun _ => .ok [podC10]
    getPodMetricsR := fun _ _ => .error "metrics unavailable" }

/-- C10 witness: a pod with 2 declared containers and a failing metrics
lookup yields exactly 2 error entries. -/
theorem c10_witness :
    listContainersLoop cenvC10 (some ()) "ns" podC10.name (Totals.zero, []) podC10.containers
      = some (Totals.zero, [] ++ List.replicate podC10.containers.length "metrics unavailable") :=
  c10_fetch_per_container cenvC10 "ns" podC10 Totals.zero [] "metrics unavailable" rfl

/-- A run whose three construction steps succeeded terminates normally with
the mode's table and every fetch error in append order. -/
lemma mainRun_ok_eq (env : K8sEnv) (arg : String)
    (h1 : env.buildConfig = .ok ()) (h2 : env.newClientset = .ok ())
    (h3 : env.newMetricsClientset = .ok ()) :
    mainRun env arg = .completed (mainTableOf env arg) (fetchErrorsOf env arg) := by
  by_cases harg : arg = ""
  · subst harg
    cases hn : env.listNamespacesR with
    | error e =>
      have ha : nssOf env = [] := by simp [nssOf, hn]
      have hb : nsListErr env = [e] := by simp [nsListErr, hn]
      simp only [mainRun, h1, h2, h3, hn, if_pos rfl]
      rw [listNamespaceMetrics_eq]
      simp [mainTableOf, fetchErrorsOf, ha, hb]
    | ok l =>
      have ha : nssOf env = l := by simp [nssOf, hn]
      have hb : nsListErr env = [] := by simp [nsListErr, hn]
      simp only [mainRun, h1, h2, h3, hn, if_pos rfl]
      rw [listNamespaceMetrics_eq]
      simp [mainTableOf, fetchErrorsOf, ha, hb]
  · simp only [mainRun, h1, h2, h3, if_neg harg]
    rw [printNamespaceMetrics_eq]
    simp [mainTableOf, fetchErrorsOf, harg]

/-- cenvBadCfg: an environment whose kubeconfig construction fails. -/
def cenvBadCfg : K8sEnv :=
  { buildConfig := .error "no kubeconfig"
    newClientset := .ok ()
    newMetricsClientset := .ok ()
    listNamespacesR := .ok []
    listPodsR := fun _ => .ok []
    getPodMetricsR := fun _ _ => .error "unused" }

/-- cenvC2: an environment whose metrics clientset construction fails while
everything else succeeds, and whose only namespace has no pods. -/
def cenvC2 : K8sEnv :=
  { buildConfig := .ok ()
    newClientset := .ok ()
    newMetricsClientset := .error "metrics client construction failed"
    listNamespacesR := .ok ["ns1"]
    listPodsR := fun _ => .ok []
    getPodMetricsR := fun _ _ => .error "unused" }

/-- C2 is false on the code: there is no explicit early exit — on `cenvC2`
the metrics clientset construction fails before any data fetch, yet the run
terminates normally, prints the (header-only) table and reports the
construction error in the trailing error list. -/
theorem c2_counterexample :
    cenvC2.newMetricsClientset = Except.error "metrics client construction failed"
  ∧ mainRun cenvC2 "" = RunResult.completed [listHeader] ["metrics client construction failed"]
  ∧ (mainRun cenvC2 "").isCompleted = true :=
  ⟨rfl, rfl, rfl⟩

/-- C2 amended: the source has no explicit early-exit path — construction
failures are appended to the error list and execution continues, aborting
(as a nil dereference) only if and when the failed client is used: a failed
config construction aborts immediately at client construction, while a run
whose three constructions succeed always terminates normally after the
table and error list. -/
theorem c2_amended :
    (∀ (env : K8sEnv) (arg e : String),
      env.buildConfig = .error e → mainRun env arg = .panicked)
    ∧ (∀ (env : K8sEnv) (arg : String),
        env.buildConfig = .ok () → env.newClientset = .ok () →
        env.newMetricsClientset = .ok () → (mainRun env arg).isCompleted = true) := by
  constructor
  · intro env arg e h
    simp [mainRun, h]
  · intro env arg h1 h2 h3
    rw [mainRun_ok_eq env arg h1 h2 h3]
    rfl

/-- C2 amended witness: a failed config construction aborts at once; an
all-successful construction completes normally. -/
theorem c2_amended_witness :
    mainRun cenvBadCfg "" = RunResult.panicked
  ∧ (mainRun cenvC1 "ns").isCompleted = true :=
  ⟨c2_amended.1 cenvBadCfg "" "no kubeconfig" rfl, c2_amended.2 cenvC1 "ns" rfl rfl rfl⟩

/-- C7: when the constructions succeed, every fetch failure is recorded in
the error list (the failed unit of work contributing nothing) and the run
always completes; after the rendered table, a non-empty error list is
printed as a 1-based numbered list in append order. -/
theorem c7_error_flow :
    ∀ (env : K8sEnv) (arg : String),
    env.buildConfig = .ok () → env.newClientset = .ok () →
    env.newMetricsClientset = .ok () →
    mainRun env arg = .completed (mainTableOf env arg) (fetchErrorsOf env arg)
    ∧ mainOutput (mainRun env arg)
        = (renderTable (mainTableOf env arg)).map lineStr
          ++ (if (fetchErrorsOf env arg).length > 0 then
                "" :: "Error(s) :" ::
                  ((fetchErrorsOf env arg).enum.map fun p => toString (p.1 + 1) ++ ". " ++ p.2)
              else []) := by
  intro env arg h1 h2 h3
  have hmain := mainRun_ok_eq env arg h1 h2 h3
  refine ⟨hmain, ?_⟩
  rw [hmain]
  rfl

/-- podW: a pod with one declared container for the C7 witness scenario. -/
def podW : Pod := ⟨"pw", [⟨"c1", 200, 300, 104857600, 157286400⟩]⟩

/-- cenvC7: three namespaces of which the second fails to list its pods —
the spec's partial-failure scenario. -/
def cenvC7 : K8sEnv :=
  { buildConfig := .ok ()
    newClientset := .ok ()
    newMetricsClientset := .ok ()
    listNamespacesR := .ok ["a", "b", "c"]
    listPodsR := fun ns => if ns = "b" then .error "listing pods failed" else .ok [podW]
    getPodMetricsR := fun _ _ => .ok [⟨"c1", 100, 52428800⟩] }

/-- C7 witness: the three-namespace run with one failing pod listing
completes and reports the single numbered error after the table. -/
theorem c7_witness :
    mainRun cenvC7 "" = .completed (mainTableOf cenvC7 "") (fetchErrorsOf cenvC7 "")
    ∧ mainOutput (mainRun cenvC7 "")
        = (renderTable (mainTableOf cenvC7 "")).map lineStr
          ++ (if (fetchErrorsOf cenvC7 "").length > 0 then
                "" :: "Error(s) :" ::
                  ((fetchErrorsOf cenvC7 "").enum.map fun p => toString (p.1 + 1) ++ ". " ++ p.2)
              else []) :=
  c7_error_flow cenvC7 "" rfl rfl rfl

/-! ## Renderer lemmas -/

/-- colMax: the column-width specification — the maximum cell length of
column j over all rows (header included), absent cells counting as empty. -/
def colMax (tableData : List (List String)) (j : Nat) : Nat :=
  tableData.foldl (fun m row => Nat.max m ((row.getD j "").length)) 0

/-- The padded cell has the cell's length plus the missing padding. -/
lemma padRight_length (s : String) (w : Nat) :
    (padRight s w).length = s.length + (w - s.length) := by
  simp [padRight, String.length_append]

/-- repChar produces exactly n characters. -/
lemma repChar_length (c : Char) (n : Nat) : (repChar c n).length = n := by
  simp [repChar]

/-- widenRow keeps the width list's length (for rows no longer than it). -/
lemma widenRow_length : ∀ (ws : List Nat) (row : List String),
    row.length ≤ ws.length → (widenRow ws row).length = ws.length := by
  intro ws
  induction ws with
  | nil =>
    intro row h
    cases row with
    | nil => rfl
    | cons c r => simp at h
  | cons w ws ih =>
    intro row h
    cases row with
    | nil => rfl
    | cons c r =>
      simp only [widenRow, List.length_cons]
      rw [ih r (by simpa using h)]

/-- One widenRow pass takes the pointwise maximum of the current width and
the cell length. -/
lemma widenRow_getD : ∀ (ws : List Nat) (row : List String) (j : Nat),
    row.length ≤ ws.length →
    (widenRow ws row).getD j 0 = Nat.max (ws.getD j 0) ((row.getD j "").length) := by
  intro ws
  induction ws with
  | nil =>
    intro row j h
    cases row with
    | nil => simp [widenRow]
    | cons c r => simp at h
  | cons w ws ih =>
    intro row j h
    cases row with
    | nil => simp [widenRow]
    | cons c r =>
      cases j with
      | zero =>
        simp only [widenRow, List.getD_cons_zero]
        rcases Nat.lt_or_ge w c.length with h2 | h2
        · rw [if_pos (by omega)]
          exact (Nat.max_eq_right (Nat.le_of_lt h2)).symm
        · rw [if_neg (by omega)]
          exact (Nat.max_eq_left h2).symm
      | succ j =>
        simp only [widenRow, List.getD_cons_succ]
        exact ih r j (by simpa using h)

/-- Folding widenRow over the rows computes, per column, the fold of the
maxima of the cell lengths. -/
lemma foldl_widen_getD : ∀ (data : List (List String)) (ws : List Nat) (j : Nat),
    (∀ r ∈ data, r.length = ws.length) →
    (data.foldl widenRow ws).getD j 0
      = data.foldl (fun m row => Nat.max m ((row.getD j "").length)) (ws.getD j 0) := by
  intro data
  induction data with
  | nil => intro ws j h; rfl
  | cons r data ih =>
    intro ws j h
    have hr : r.length = ws.length := h r (List.mem_cons_self r data)
    have hlen : (widenRow ws r).length = ws.length := widenRow_length ws r (le_of_eq hr)
    simp only [List.foldl_cons]
    rw [ih (widenRow ws r) j (by intro r2 h2; rw [hlen]; exact h r2 (List.mem_cons_of_mem r h2))]
    rw [widenRow_getD ws r j (le_of_eq hr)]

/-- The width of every column equals the maximum cell length of that column
over all rows, header included. -/
lemma computeWidths_getD (data : List (List String)) (n : Nat)
    (hne : data ≠ []) (hu : ∀ r ∈ data, r.length = n) :
    ∀ j, (computeWidths data).getD j 0 = colMax data j := by
  intro j
  cases data with
  | nil => exact absurd rfl hne
  | cons r0 rest =>
    have hr0 : r0.length = n := hu r0 (List.mem_cons_self r0 rest)
    have hinit : ((r0 :: rest).headD []).length = n := by simpa using hr0
    unfold computeWidths colMax
    rw [hinit]
    rw [foldl_widen_getD (r0 :: rest) (List.replicate n 0) j
      (by intro r2 h2; rw [List.length_replicate]; exact hu r2 h2)]
    have hz : (List.replicate n (0 : Nat)).getD j 0 = 0 := by
      simp [List.getD_eq_getElem?_getD]
    rw [hz]

/-- The width list has one entry per column. -/
lemma computeWidths_length (data : List (List String)) (n : Nat)
    (hne : data ≠ []) (hu : ∀ r ∈ data, r.length = n) :
    (computeWidths data).length = n := by
  have haux : ∀ (d : List (List String)) (ws : List Nat),
      (∀ r ∈ d, r.length = ws.length) → (d.foldl widenRow ws).length = ws.length := by
    intro d
    induction d with
    | nil => intro ws h; rfl
    | cons r d ih =>
      intro ws h
      have hr : r.length = ws.length := h r (List.mem_cons_self r d)
      have hlen : (widenRow ws r).length = ws.length := widenRow_length ws r (le_of_eq hr)
      simp only [List.foldl_cons]
      rw [ih (widenRow ws r) (by intro r2 h2; rw [hlen]; exact h r2 (List.mem_cons_of_mem r h2))]
      exact hlen
  cases data with
  | nil => exact absurd rfl hne
  | cons r0 rest =>
    have hr0 : r0.length = n := hu r0 (List.mem_cons_self r0 rest)
    have hinit : ((r0 :: rest).headD []).length = n := by simpa using hr0
    unfold computeWidths
    rw [hinit]
    rw [haux (r0 :: rest) (List.replicate n 0)
      (by intro r2 h2; rw [List.length_replicate]; exact hu r2 h2)]
    exact List.length_replicate n 0

/-- The fold of column maxima only grows from its seed. -/
lemma le_foldl_max_init (j : Nat) : ∀ (data : List (List String)) (m : Nat),
    m ≤ data.foldl (fun m row => Nat.max m ((row.getD j "").length)) m := by
  intro data
  induction data with
  | nil => intro m; exact le_rfl
  | cons r data ih =>
    intro m
    calc m ≤ Nat.max m ((r.getD j "").length) := Nat.le_max_left _ _
      _ ≤ _ := ih _

/-- Every cell of every row fits in its column's maximum. -/
lemma cell_le_colMax (j : Nat) : ∀ (data : List (List String)) (row : List String),
    row ∈ data → (row.getD j "").length ≤ colMax data j := by
  have haux : ∀ (data : List (List String)) (m : Nat) (row : List String),
      row ∈ data →
      (row.getD j "").length
        ≤ data.foldl (fun m row => Nat.max m ((row.getD j "").length)) m := by
    intro data
    induction data with
    | nil => intro m row h; simp at h
    | cons r data ih =>
      intro m row h
      simp only [List.foldl_cons]
      rcases List.mem_cons.mp h with h1 | h1
      · subst h1
        calc (row.getD j "").length
            ≤ Nat.max m ((row.getD j "").length) := Nat.le_max_right _ _
          _ ≤ _ := le_foldl_max_init j data _
      · exact ih _ row h1
  intro data row h
  exact haux data 0 row h

/-- Visible length distributes over line concatenation. -/
lemma lineVisLen_append (a b : List Seg) :
    lineVisLen (a ++ b) = lineVisLen a + lineVisLen b := by
  simp [lineVisLen, List.map_append, List.sum_append]

/-- Visible length of a line starting with one segment. -/
lemma lineVisLen_cons (s : Seg) (l : List Seg) :
    lineVisLen (s :: l) = segVis s + lineVisLen l := by
  simp [lineVisLen]

/-- The visible length of the cell groups of a data row: one margin, the
padded cell, the other margin and the column separator per column. -/
lemma zipFlat_visLen (color : String) : ∀ (row : List String) (ws : List Nat),
    row.length = ws.length →
    (∀ j, j < ws.length → (row.getD j "").length ≤ ws.getD j 0) →
    lineVisLen ((row.zip ws).flatMap fun cw =>
      [Seg.sty color, Seg.txt (" " ++ padRight cw.1 cw.2 ++ " "), Seg.sty resetSty, Seg.txt "│"])
      = (ws.map fun w => w + 3).sum := by
  intro row
  induction row with
  | nil =>
    intro ws h hc
    have hws : ws = [] := by
      cases ws with
      | nil => rfl
      | cons w ws => simp at h
    subst hws
    simp [lineVisLen]
  | cons c row ih =>
    intro ws h hc
    cases ws with
    | nil => simp at h
    | cons w ws =>
      have hc0 : c.length ≤ w := by
        have := hc 0 (by simp)
        simpa using this
      have hcr : ∀ j, j < ws.length → (row.getD j "").length ≤ ws.getD j 0 := by
        intro j hj
        have := hc (j + 1) (by simpa using hj)
        simpa using this
      simp only [List.zip_cons_cons, List.flatMap_cons]
      rw [lineVisLen_append, ih ws (by simpa using h) hcr]
      simp only [lineVisLen, segVis, List.map_cons, List.map_nil, List.sum_cons, List.sum_nil]
      rw [String.length_append, String.length_append, padRight_length]
      have hsp : (" " : String).length = 1 := rfl
      have hbar : ("│" : String).length = 1 := rfl
      rw [hsp, hbar]
      omega

/-- A data row line is exactly 1 + Σ(width + 3) display characters wide. -/
lemma dataRowSegs_visLen (color : String) (row : List String) (ws : List Nat)
    (h : row.length = ws.length)
    (hc : ∀ j, j < ws.length → (row.getD j "").length ≤ ws.getD j 0) :
    lineVisLen (dataRowSegs ws color row) = 1 + (ws.map fun w => w + 3).sum := by
  unfold dataRowSegs
  rw [lineVisLen_cons, zipFlat_visLen color row ws h hc]
  have hbar : segVis (Seg.txt "│") = 1 := rfl
  rw [hbar]

/-- The dashed body of a delimiter line over a non-empty width list. -/
lemma delimBody_length (mid : String) (hm : mid.length = 1) :
    ∀ (ws : List Nat) (w : Nat),
    (delimBody mid (w :: ws)).length = (w + 2) + (ws.map fun x => x + 3).sum := by
  intro ws
  induction ws with
  | nil => intro w; simp [delimBody, repChar_length]
  | cons w2 ws ih =>
    intro w
    simp only [delimBody, String.length_append, repChar_length, hm]
    rw [ih w2]
    simp only [List.map_cons, List.sum_cons]
    omega

/-- A delimiter line over a non-empty width list is exactly
1 + Σ(width + 3) display characters wide. -/
lemma delimSegs_visLen (lft mid rgt : String) (ws : List Nat)
    (hl : lft.length = 1) (hm : mid.length = 1) (hr : rgt.length = 1)
    (hne : ws ≠ []) :
    lineVisLen (delimSegs lft mid rgt ws) = 1 + (ws.map fun w => w + 3).sum := by
  cases ws with
  | nil => exact absurd rfl hne
  | cons w ws =>
    have hv : lineVisLen (delimSegs lft mid rgt (w :: ws))
        = (delimLine lft mid rgt (w :: ws)).length := by
      simp [lineVisLen, delimSegs, segVis]
    rw [hv]
    unfold delimLine
    rw [String.length_append, String.length_append, hl, hr, delimBody_length mid hm ws w]
    simp only [List.map_cons, List.sum_cons]
    omega

/-- Every line of the body block is a data row of the table's tail. -/
lemma bodyRowsSegs_mem : ∀ (rows : List (List String)) (ws : List Nat) (alt : Bool)
    (line : List Seg), line ∈ bodyRowsSegs ws alt rows →
    ∃ color r, r ∈ rows ∧ line = dataRowSegs ws color r := by
  intro rows
  induction rows with
  | nil => intro ws alt line h; simp [bodyRowsSegs] at h
  | cons r rows ih =>
    intro ws alt line h
    simp only [bodyRowsSegs, List.mem_cons] at h
    rcases h with h | h
    · exact ⟨(if alt then "" else grayBg), r, List.mem_cons_self r rows, h⟩
    · obtain ⟨color, r2, h1, h2⟩ := ih ws (!alt) line h
      exact ⟨color, r2, List.mem_cons_of_mem r h1, h2⟩

/-- C5: the computed width of every column is the maximum cell length of
that column over all rows including the header, and every rendered line of
every (uniform, at least one column) table — top border, header row,
header/body separator, body rows, bottom border — is exactly
1 + Σ(columnWidth + 3) display characters wide, the cosmetic style
sequences being zero-width. -/
theorem c5_column_widths_and_line_widths :
    ∀ (data : List (List String)) (n : Nat),
    data ≠ [] → 0 < n → (∀ r ∈ data, r.length = n) →
    (∀ j, (computeWidths data).getD j 0 = colMax data j)
    ∧ ∀ line ∈ renderTable data,
        lineVisLen line = 1 + ((computeWidths data).map fun w => w + 3).sum := by
  intro data n hne hn hu
  have hw := computeWidths_getD data n hne hu
  have hwl := computeWidths_length data n hne hu
  refine ⟨hw, ?_⟩
  have hwne : computeWidths data ≠ [] := by
    intro h0
    rw [h0] at hwl
    simp at hwl
    omega
  have hcell : ∀ (row : List String), row ∈ data →
      ∀ j, j < (computeWidths data).length →
      (row.getD j "").length ≤ (computeWidths data).getD j 0 := by
    intro row hrow j hj
    rw [hw j]
    exact cell_le_colMax j data row hrow
  have hdata : ∀ (row : List String) (color : String), row ∈ data →
      lineVisLen (dataRowSegs (computeWidths data) color row)
        = 1 + ((computeWidths data).map fun w => w + 3).sum := by
    intro row color hrow
    exact dataRowSegs_visLen color row (computeWidths data)
      (by rw [hwl]; exact hu row hrow) (hcell row hrow)
  intro line hline
  cases data with
  | nil => exact absurd rfl hne
  | cons r0 rest =>
    simp only [renderTable, List.headD_cons, List.tail_cons, List.mem_append, List.mem_cons,
      List.not_mem_nil, or_false] at hline
    rcases hline with ((h | h | h) | h) | h
    · subst h
      exact delimSegs_visLen "┌" "┬" "┐" (computeWidths (r0 :: rest)) rfl rfl rfl hwne
    · subst h
      exact hdata r0 "" (List.mem_cons_self r0 rest)
    · subst h
      exact delimSegs_visLen "├" "┼" "┤" (computeWidths (r0 :: rest)) rfl rfl rfl hwne
    · obtain ⟨color, r2, h1, h2⟩ :=
        bodyRowsSegs_mem rest (computeWidths (r0 :: rest)) false line h
      subst h2
      exact hdata r2 color (List.mem_cons_of_mem r0 h1)
    · subst h
      exact delimSegs_visLen "└" "┴" "┘" (computeWidths (r0 :: rest)) rfl rfl rfl hwne

/-- dataW: a small concrete two-column table. -/
def dataW : List (List String) := [["ab", "c"], ["d", "efg"]]

/-- C5 witness: the width and line-width property instantiated at a
concrete two-column table. -/
theorem c5_witness :
    (∀ j, (computeWidths dataW).getD j 0 = colMax dataW j)
    ∧ ∀ line ∈ renderTable dataW,
        lineVisLen line = 1 + ((computeWidths dataW).map fun w => w + 3).sum :=
  c5_column_widths_and_line_widths dataW 2 (by decide) (by decide) (by decide)

/-- The color of the (i+1)-th printed row with starting flag `alt` is the
color of the i-th printed row with the toggled flag. -/
lemma rowColor_succ : ∀ (alt : Bool) (i : Nat), rowColor alt (i + 1) = rowColor (!alt) i := by
  intro alt i
  rcases Nat.mod_two_eq_zero_or_one i with h | h
  · have h2 : (i + 1) % 2 = 1 := by omega
    cases alt <;> simp [rowColor, h, h2]
  · have h2 : (i + 1) % 2 = 0 := by omega
    cases alt <;> simp [rowColor, h, h2]

/-- The i-th body row is printed with the color determined by the starting
flag and the row parity. -/
lemma bodyRowsSegs_getD : ∀ (rows : List (List String)) (ws : List Nat) (alt : Bool)
    (i : Nat), i < rows.length →
    (bodyRowsSegs ws alt rows).getD i [] = dataRowSegs ws (rowColor alt i) (rows.getD i []) := by
  intro rows
  induction rows with
  | nil => intro ws alt i h; simp at h
  | cons r rows ih =>
    intro ws alt i h
    cases i with
    | zero => simp [bodyRowsSegs, rowColor]
    | succ i =>
      have h2 : i < rows.length := by simpa using h
      simp only [bodyRowsSegs, List.getD_cons_succ]
      rw [ih ws (!alt) i h2, rowColor_succ]

/-- widenRow depends only on the cell lengths of the row. -/
lemma widenRow_congr : ∀ (ws : List Nat) (r1 r2 : List String),
    r1.map String.length = r2.map String.length → widenRow ws r1 = widenRow ws r2 := by
  intro ws r1
  induction r1 generalizing ws with
  | nil =>
    intro r2 h
    cases r2 with
    | nil => rfl
    | cons c2 t2 => simp at h
  | cons c1 t1 ih =>
    intro r2 h
    cases r2 with
    | nil => simp at h
    | cons c2 t2 =>
      simp only [List.map_cons, List.cons.injEq] at h
      obtain ⟨h1, h2⟩ := h
      cases ws with
      | nil => rfl
      | cons w ws =>
        simp only [widenRow, h1]
        rw [ih ws t2 h2]

/-- The width fold depends only on the cell lengths. -/
lemma foldl_widenRow_congr : ∀ (d1 d2 : List (List String)) (ws : List Nat),
    d1.map (fun r => r.map String.length) = d2.map (fun r => r.map String.length) →
    d1.foldl widenRow ws = d2.foldl widenRow ws := by
  intro d1
  induction d1 with
  | nil =>
    intro d2 ws h
    cases d2 with
    | nil => rfl
    | cons r2 t2 => simp at h
  | cons r1 t1 ih =>
    intro d2 ws h
    cases d2 with
    | nil => simp at h
    | cons r2 t2 =>
      simp only [List.map_cons, List.cons.injEq] at h
      obtain ⟨h1, h2⟩ := h
      simp only [List.foldl_cons]
      rw [widenRow_congr ws r1 r2 h1]
      exact ih t2 (widenRow ws r2) h2

/-- The computed column widths depend only on the raw cell text lengths,
never on any styling applied at print time. -/
lemma computeWidths_congr (d1 d2 : List (List String))
    (h : d1.map (fun r => r.map String.length) = d2.map (fun r => r.map String.length)) :
    computeWidths d1 = computeWidths d2 := by
  cases d1 with
  | nil =>
    cases d2 with
    | nil => rfl
    | cons r2 t2 => simp at h
  | cons r1 t1 =>
    cases d2 with
    | nil => simp at h
    | cons r2 t2 =>
      have hp := h
      simp only [List.map_cons, List.cons.injEq] at hp
      obtain ⟨h1, h2⟩ := hp
      have hl : r1.length = r2.length := by
        have hc := congrArg List.length h1
        simpa using hc
      unfold computeWidths
      simp only [List.headD_cons]
      rw [hl]
      exact foldl_widenRow_congr (r1 :: t1) (r2 :: t2) _ h

/-- cexTable: a header and two body rows. -/
def cexTable : List (List String) := [["H1", "H2"], ["a", "b"], ["c", "d"]]

/-- C3 is false on the code: the header row is printed through the same
closure while `alternateColor` is still true, so it consumes the plain
style and the FIRST body row is printed with the highlighted gray
background (the second body row is plain, as is the header). -/
theorem c3_counterexample :
    Seg.sty grayBg ∈ (renderTable cexTable).getD 3 []
  ∧ Seg.sty grayBg ∉ (renderTable cexTable).getD 4 []
  ∧ Seg.sty grayBg ∉ (renderTable cexTable).getD 1 [] := by
  decide

/-- C3 amended: body rows alternate between the highlighted background and
the plain style starting with the HIGHLIGHTED background on the first body
row (even 0-based indices highlighted, odd plain), and the style never
affects column-width computation, which depends only on the raw cell text
lengths. -/
theorem c3_amended :
    (∀ (ws : List Nat) (rows : List (List String)) (i : Nat),
      i < rows.length →
      (bodyRowsSegs ws false rows).getD i []
        = dataRowSegs ws (if i % 2 = 0 then grayBg else "") (rows.getD i []))
    ∧ (∀ d1 d2 : List (List String),
        d1.map (fun r => r.map String.length) = d2.map (fun r => r.map String.length) →
        computeWidths d1 = computeWidths d2) := by
  constructor
  · intro ws rows i h
    rw [bodyRowsSegs_getD rows ws false i h]
    rcases Nat.mod_two_eq_zero_or_one i with h2 | h2 <;> simp [rowColor, h2]
  · exact computeWidths_congr

/-- C3 amended witness: first body row highlighted at a concrete table, and
width computation untouched by a cell-text change that keeps lengths. -/
theorem c3_amended_witness :
    (bodyRowsSegs [1] false [["x"], ["y"]]).getD 0 []
      = dataRowSegs [1] (if 0 % 2 = 0 then grayBg else "") ([["x"], ["y"]].getD 0 [])
  ∧ computeWidths [["ab"]] = computeWidths [["cd"]] :=
  ⟨c3_amended.1 [1] [["x"], ["y"]] 0 (by decide),
   c3_amended.2 [["ab"]] [["cd"]] (by decide)⟩

/-- C9 is false as stated: rendering a header-only table emits FOUR lines —
the header/body separator is printed unconditionally — not just the header
between the top and bottom borders; the extra third line differs from the
other three. -/
theorem c9_counterexample :
    (renderTable [["A"]]).length = 4
  ∧ (renderTable [["A"]]).getD 2 [] = [Seg.txt "├───┤"]
  ∧ (renderTable [["A"]]).getD 2 [] ≠ (renderTable [["A"]]).getD 0 []
  ∧ (renderTable [["A"]]).getD 2 [] ≠ (renderTable [["A"]]).getD 1 []
  ∧ (renderTable [["A"]]).getD 2 [] ≠ (renderTable [["A"]]).getD 3 [] := by
  decide

/-- C9 amended: rendering a table whose only row is the header never fails —
for every header it degenerates to exactly the top border, the header row,
the header/body separator and the bottom border, with no body rows. -/
theorem c9_header_only :
    ∀ (hdr : List String),
    renderTable [hdr]
      = [delimSegs "┌" "┬" "┐" (computeWidths [hdr]),
         dataRowSegs (computeWidths [hdr]) "" hdr,
         delimSegs "├" "┼" "┤" (computeWidths [hdr]),
         delimSegs "└" "┴" "┘" (computeWidths [hdr])] := by
  intro hdr
  simp [renderTable, bodyRowsSegs]
